import Mathlib

/-!
Verification development for the structural flattening/rehydration engine
("arena") and the replica-synchronized optimizer step of
`torch_xla_py/xla_model.py`.

The embedding below mirrors the Python source:
* `ToXlaTensorArena` becomes the `Arena` structure with explicit state
  passing (`arenaAdd`, `arenaConvert`, `getConvertedTensor`);
* `_collect_tensors` / `_replace_tensors` become `collectTensors` /
  `replaceTensors`, recursing over a `PyVal` tree that models the Python
  runtime values the functions dispatch on (tensors, lists, tuples, dicts,
  `LinearIndex` handles, opaque scalars);
* `_fetch_optimizer_state` becomes `fetchOptimizerState` over `OptVal`
  snapshots (the per-parameter auxiliary-state lookup
  `optimizer.state.get(p)` is carried inline on each tensor node, which is
  faithful for cycle-free snapshots);
* `optimizer_step` / `_mark_step` become `optimizerStep` / `markStep`,
  with the external collaborators (replication count, collective sum,
  `optimizer.step`, graph export, step marker) modelled by a `World`
  record and an observable `Event` trace.

Python `assert` failures and the out-of-range device-list access are
modelled with `Except`; state mutated before an exception is preserved by
returning the arena alongside the `Except` result, exactly as the Python
objects keep their mutations when an exception propagates.
-/

namespace XlaModel

/-- Python runtime type tags, as compared by `type(x) == collect_type` in
`_collect_tensors` and by `type(self._tensors[0]) == type(tensor)` in
`ToXlaTensorArena.add`. -/
inductive PyType where
  | tensorT
  | xtensorT
  | lidxT
  | scalarT
  | listT
  | tupleT
  | dictT
deriving DecidableEq

/-- The `LinearIndex` class: a bare positional handle into the arena's
ordered tensor list (`xla_model.py` lines 151-154). -/
structure LinearIndex where
  index : Nat
deriving DecidableEq

/-- A Python value as seen by `_collect_tensors` / `_replace_tensors`:
a buffer of the collected kind (`tensor`), a buffer of another kind
(`xtensor`), a `LinearIndex` handle, an opaque non-container scalar,
a list, a tuple, or a dict. -/
inductive PyVal where
  | tensor (tid : Nat)
  | xtensor (tid : Nat)
  | lidx (l : LinearIndex)
  | scalar (n : Nat)
  | lst (xs : List PyVal)
  | tup (xs : List PyVal)
  | dict (kvs : List (PyVal × PyVal))

/-- The runtime type of a `PyVal`, used for the exact `type(...)` equality
checks in the source. -/
def pyType : PyVal → PyType
  | .tensor _ => .tensorT
  | .xtensor _ => .xtensorT
  | .lidx _ => .lidxT
  | .scalar _ => .scalarT
  | .lst _ => .listT
  | .tup _ => .tupleT
  | .dict _ => .dictT

/-- Failure modes of the arena/walker code paths: the heterogeneity
`assert` in `add`, the `assert self._converted_tensors is not None` and
bounds `assert` in `get_converted_tensor`, and the
`assert len(devices) > i` in `_collect_tensors`. -/
inductive ArenaError where
  | heterogeneous
  | sequencing
  | bounds
  | deviceListTooShort
deriving DecidableEq

/-- The `ToXlaTensorArena` object state (`xla_model.py` lines 157-163):
a conversion function, the ordered pre-conversion tensor list, the
parallel device-tag list, and the optional converted list. -/
structure Arena where
  convertFn : List PyVal → List String → List PyVal
  tensors : List PyVal := []
  devices : List String := []
  converted : Option (List PyVal) := none

/-- A fresh arena session, as built by `ToXlaTensorArena(convert_fn)`. -/
def mkArena (f : List PyVal → List String → List PyVal) : Arena :=
  { convertFn := f }

/-- The successful tail of `ToXlaTensorArena.add`: append the tensor,
append the device tag only when one was supplied, and hand back
`LinearIndex(len(self._tensors) - 1)`. -/
def arenaPush (a : Arena) (t : PyVal) (device : Option String) :
    Arena × LinearIndex :=
  ({ a with
      tensors := a.tensors ++ [t]
      devices :=
        match device with
        | some d => a.devices ++ [d]
        | none => a.devices },
   ⟨a.tensors.length⟩)

/-- `ToXlaTensorArena.add` (lines 165-171): when the session already holds
tensors, assert that the new tensor has the same runtime type as the
first one, then push. -/
def arenaAdd (a : Arena) (t : PyVal) (device : Option String) :
    Except ArenaError (Arena × LinearIndex) :=
  match a.tensors with
  | [] => .ok (arenaPush a t device)
  | t0 :: _ =>
    if pyType t0 = pyType t then .ok (arenaPush a t device)
    else .error .heterogeneous

/-- `ToXlaTensorArena.convert` (lines 173-175): when the tensor list is
non-empty, run the conversion function on the full tensor and device
lists and store the result; otherwise do nothing.  The source has no
guard against calling it again. -/
def arenaConvert (a : Arena) : Arena :=
  match a.tensors with
  | [] => a
  | _ :: _ => { a with converted := some (a.convertFn a.tensors a.devices) }

/-- `ToXlaTensorArena.get_converted_tensor` (lines 177-181): assert that a
converted list exists and the handle's index is in range, then index into
it.  The issuing session of the handle is not (and cannot be) checked. -/
def getConvertedTensor (a : Arena) (l : LinearIndex) :
    Except ArenaError PyVal :=
  match a.converted with
  | none => .error .sequencing
  | some cs =>
    if h : l.index < cs.length then .ok cs[l.index]
    else .error .bounds

mutual

/-- `_collect_tensors` (lines 184-199).  The arena is threaded explicitly;
it is returned even on error, mirroring that a Python exception leaves
the already-performed mutations in place. -/
def collectTensors (a : Arena) (ct : PyType) (v : PyVal)
    (devices : Option (List String)) (device : String) :
    Arena × Except ArenaError PyVal :=
  if pyType v = ct then
    match arenaAdd a v (some device) with
    | .ok (a1, h) => (a1, .ok (.lidx h))
    | .error e => (a, .error e)
  else
    match v with
    | .lst xs =>
      match collectList a ct xs devices 0 device with
      | (a1, .ok ms) => (a1, .ok (.tup ms))
      | (a1, .error e) => (a1, .error e)
    | .tup xs =>
      match collectList a ct xs devices 0 device with
      | (a1, .ok ms) => (a1, .ok (.tup ms))
      | (a1, .error e) => (a1, .error e)
    | w => (a, .ok w)

/-- The `for i, input in enumerate(inputs)` loop of `_collect_tensors`:
when a device list is present, slot `i` must be covered
(`assert len(devices) > i`) and selects `devices[i]` as the tag passed to
the recursive call (which itself passes `devices=None`). -/
def collectList (a : Arena) (ct : PyType) (xs : List PyVal)
    (devices : Option (List String)) (i : Nat) (device : String) :
    Arena × Except ArenaError (List PyVal) :=
  match xs with
  | [] => (a, .ok [])
  | x :: rest =>
    match devices with
    | none =>
      match collectTensors a ct x none device with
      | (a1, .ok m) =>
        match collectList a1 ct rest none (i + 1) device with
        | (a2, .ok ms) => (a2, .ok (m :: ms))
        | (a2, .error e) => (a2, .error e)
      | (a1, .error e) => (a1, .error e)
    | some ds =>
      if h : i < ds.length then
        match collectTensors a ct x none ds[i] with
        | (a1, .ok m) =>
          match collectList a1 ct rest (some ds) (i + 1) ds[i] with
          | (a2, .ok ms) => (a2, .ok (m :: ms))
          | (a2, .error e) => (a2, .error e)
        | (a1, .error e) => (a1, .error e)
      else (a, .error .deviceListTooShort)

end

mutual

/-- `_replace_tensors` (lines 202-210): substitute each `LinearIndex` by
the arena's converted tensor, rebuild lists and tuples as tuples, pass
everything else through unchanged. -/
def replaceTensors (a : Arena) (v : PyVal) : Except ArenaError PyVal :=
  match v with
  | .lidx l => getConvertedTensor a l
  | .lst xs =>
    match replaceList a xs with
    | .ok ys => .ok (.tup ys)
    | .error e => .error e
  | .tup xs =>
    match replaceList a xs with
    | .ok ys => .ok (.tup ys)
    | .error e => .error e
  | w => .ok w

/-- The element loop of `_replace_tensors`. -/
def replaceList (a : Arena) (xs : List PyVal) :
    Except ArenaError (List PyVal) :=
  match xs with
  | [] => .ok []
  | x :: rest =>
    match replaceTensors a x with
    | .ok y =>
      match replaceList a rest with
      | .ok ys => .ok (y :: ys)
      | .error e => .error e
    | .error e => .error e

end

mutual

/-- A cycle-free nested structure of lists/tuples whose leaves are all
buffers of the collected kind — the input shape of the round-trip claim. -/
def wf : PyVal → Bool
  | .tensor _ => true
  | .lst xs => wfList xs
  | .tup xs => wfList xs
  | _ => false

/-- `wf` on every element of a list. -/
def wfList : List PyVal → Bool
  | [] => true
  | x :: xs => wf x && wfList xs

end

mutual

/-- The collected-kind leaves of a structure in depth-first, left-to-right
order — the order in which `_collect_tensors` registers them. -/
def tLeaves : PyVal → List PyVal
  | .tensor n => [.tensor n]
  | .lst xs => tLeavesList xs
  | .tup xs => tLeavesList xs
  | _ => []

/-- `tLeaves` concatenated over a list of structures. -/
def tLeavesList : List PyVal → List PyVal
  | [] => []
  | x :: xs => tLeaves x ++ tLeavesList xs

end

/-- Number of collected-kind leaves of a structure. -/
def numLeaves (v : PyVal) : Nat := (tLeaves v).length

/-- Number of collected-kind leaves across a list of structures. -/
def numLeavesList (xs : List PyVal) : Nat := (tLeavesList xs).length

mutual

/-- The mirrored structure produced by `_collect_tensors` on a well-formed
input whose first leaf receives handle `k`: leaves become consecutive
`LinearIndex` handles in depth-first order, lists and tuples both become
tuples. -/
def mirror : PyVal → Nat → PyVal
  | .tensor _, k => .lidx ⟨k⟩
  | .lst xs, k => .tup (mirrorList xs k)
  | .tup xs, k => .tup (mirrorList xs k)
  | w, _ => w

/-- `mirror` across a list, advancing the handle counter by the number of
leaves of each element. -/
def mirrorList : List PyVal → Nat → List PyVal
  | [], _ => []
  | x :: rest, k => mirror x k :: mirrorList rest (k + numLeaves x)

end

mutual

/-- Modelled from the spec: the round-trip result it promises — a structure
isomorphic to the input in which the leaf occupying position `k` in
collection order is replaced by element `k` of the converted list
(`convert_fn(collectedLeaves, tags)[k]`). -/
def rehydrateSpec : PyVal → List PyVal → Nat → PyVal
  | .tensor _, outs, k => (outs[k]?).getD (.scalar 0)
  | .lst xs, outs, k => .tup (rehydrateSpecList xs outs k)
  | .tup xs, outs, k => .tup (rehydrateSpecList xs outs k)
  | w, _, _ => w

/-- `rehydrateSpec` across a list, advancing the leaf counter. -/
def rehydrateSpecList : List PyVal → List PyVal → Nat → List PyVal
  | [], _, _ => []
  | x :: rest, outs, k =>
    rehydrateSpec x outs k :: rehydrateSpecList rest outs (k + numLeaves x)

end

/-- The device tags registered for the leaves of the outer slots
`xs`, where slot `j` (counting from `i`) tags all of its leaves with
`ds[i + j]`. -/
def slotTags : List PyVal → List String → Nat → List String
  | [], _, _ => []
  | x :: rest, ds, i =>
    List.replicate (numLeaves x) (ds.getD i "") ++ slotTags rest ds (i + 1)

/-- An arena session driven by a list of `add` calls, each supplying a
tensor and an optional device tag; stops at the first failing `add`. -/
def runAdds (a : Arena) : List (PyVal × Option String) → Except ArenaError Arena
  | [] => .ok a
  | (t, d) :: rest =>
    match arenaAdd a t d with
    | .ok (a1, _) => runAdds a1 rest
    | .error e => .error e

/-- A value inside an optimizer snapshot, as dispatched on by the nested
`add` of `_fetch_optimizer_state` (lines 233-253): a tensor (carrying the
id of its `.data`, the id of `.grad.data` when a gradient is attached, and
the optimizer's per-parameter auxiliary state `optimizer.state.get(p)`
inlined on the node, which is faithful for cycle-free snapshots), a dict,
an ordered sequence (list/tuple/set), or an opaque scalar. -/
inductive OptVal where
  | tensor (dataId : Nat) (grad : Option Nat) (pstate : Option OptVal)
  | dict (kvs : List (OptVal × OptVal))
  | seq (xs : List OptVal)
  | scalar (n : Nat)

/-- Python truthiness of an optimizer-state value, used by the
`if pstate:` test. -/
def truthy : OptVal → Bool
  | .tensor _ _ _ => true
  | .dict kvs => !kvs.isEmpty
  | .seq xs => !xs.isEmpty
  | .scalar n => n != 0

/-- The `OptimizerState` accumulator (lines 43-47): ordered lists of the
ids of collected parameter data and gradient data. -/
structure OptimizerState where
  tensors : List Nat := []
  gradients : List Nat := []
deriving DecidableEq

mutual

/-- The inner `add(p, state)` of `_fetch_optimizer_state`: a tensor
appends its data (and its gradient's data, when present) and recurses
into its truthy auxiliary state; dicts recurse into each key then value;
sequences recurse elementwise; everything else is ignored. -/
def addVal (p : OptVal) (s : OptimizerState) : OptimizerState :=
  match p with
  | .tensor d g ps =>
    let s1 : OptimizerState := { s with tensors := s.tensors ++ [d] }
    let s2 : OptimizerState :=
      match g with
      | some gg => { s1 with gradients := s1.gradients ++ [gg] }
      | none => s1
    match ps with
    | some pv => if truthy pv then addVal pv s2 else s2
    | none => s2
  | .dict kvs => addDict kvs s
  | .seq xs => addSeq xs s
  | .scalar _ => s

/-- The `for k, v in p.items()` loop: key before value, in dict order. -/
def addDict (kvs : List (OptVal × OptVal)) (s : OptimizerState) :
    OptimizerState :=
  match kvs with
  | [] => s
  | (k, v) :: rest => addDict rest (addVal v (addVal k s))

/-- The `for x in p` loop over sequences. -/
def addSeq (xs : List OptVal) (s : OptimizerState) : OptimizerState :=
  match xs with
  | [] => s
  | x :: rest => addSeq rest (addVal x s)

end

/-- `_fetch_optimizer_state(optimizer)`: walk the snapshot returned by
`optimizer.__getstate__()` starting from an empty accumulator. -/
def fetchOptimizerState (snapshot : OptVal) : OptimizerState :=
  addVal snapshot ⟨[], []⟩

/-- Modelled from the spec: the scenario snapshot of the collector-ordering
property — an optimizer whose state maps parameters `p0`, `p1` (each with
gradient `g0`, `g1`) to auxiliary momentum state holding buffers `m0`,
`m1`; each parameter occurs once in the walked snapshot, as keys of the
state mapping (torch's `__getstate__` itself is external to this
repository). -/
def canonSnapshot (p0 g0 m0 p1 g1 m1 : Nat) : OptVal :=
  .dict [(.scalar 0,
    .dict [(.tensor p0 (some g0)
              (some (.dict [(.scalar 1, .tensor m0 none none)])),
            .dict [(.scalar 1, .tensor m0 none none)]),
           (.tensor p1 (some g1)
              (some (.dict [(.scalar 1, .tensor m1 none none)])),
            .dict [(.scalar 1, .tensor m1 none none)])])]

/-- Failure mode of the step-completion path: the diagnostic graph export
(`gs.save_tensors_graph`) raising. -/
inductive StepError where
  | exportFailed
deriving DecidableEq

/-- Observable calls `optimizer_step` / `_mark_step` make to their external
collaborators, in order. -/
inductive Event where
  | crossReplicaSum (gradients : List Nat) (scale : Rat)
      (groups : List (List Nat))
  | optStep
  | saveTensorsGraph (dir : String) (tag : String) (tensors : List Nat)
  | stepMarker (device : String)
deriving DecidableEq

/-- The external collaborators of one `optimizer_step` call: the optimizer
snapshot, the replication device count, the `SAVE_GRAPH_DIR` environment
variable, whether the diagnostic export succeeds when attempted, the value
`optimizer.step(closure)` returns (a loss or `None`), and the default
device name used by the step marker. -/
structure World where
  snapshot : OptVal
  replicaCount : Nat
  saveGraphDir : Option String
  exportOk : Bool
  stepLoss : Option Rat
  defaultDevice : String

/-- `_mark_step(state)` (lines 256-261): when `SAVE_GRAPH_DIR` is set to a
truthy (non-empty) string, call the diagnostic export on
`state.gradients + state.tensors`; there is no exception handling, so a
failing export propagates and the step marker is never emitted. -/
def markStep (w : World) (st : OptimizerState) :
    List Event × Except StepError Unit :=
  match w.saveGraphDir with
  | some dir =>
    if dir = "" then ([.stepMarker w.defaultDevice], .ok ())
    else if w.exportOk then
      ([.saveTensorsGraph dir "optimizer_step" (st.gradients ++ st.tensors),
        .stepMarker w.defaultDevice], .ok ())
    else
      ([.saveTensorsGraph dir "optimizer_step" (st.gradients ++ st.tensors)],
       .error .exportFailed)
  | none => ([.stepMarker w.defaultDevice], .ok ())

/-- `optimizer_step(optimizer, closure)` (lines 264-271): fetch the
optimizer state, run the collective cross-replica sum on the gradient list
with scale `1.0 / count` and the empty group list when the replication
device count exceeds one, run the local `optimizer.step(closure)`, emit
the step-completion path, and return the loss — unless `_mark_step`
raised, in which case the error propagates. -/
def optimizerStep (w : World) : List Event × Except StepError (Option Rat) :=
  let st := fetchOptimizerState w.snapshot
  let pre : List Event :=
    if 1 < w.replicaCount then
      [.crossReplicaSum st.gradients (1 / (w.replicaCount : Rat)) []]
    else []
  let mk := markStep w st
  (pre ++ [Event.optStep] ++ mk.1, mk.2.map (fun _ => w.stepLoss))

/-- The diagnostic-export events `_mark_step` emits for world `w`. -/
def saveEvents (w : World) : List Event :=
  match w.saveGraphDir with
  | some dir =>
    if dir = "" then []
    else [.saveTensorsGraph dir "optimizer_step"
            ((fetchOptimizerState w.snapshot).gradients ++
             (fetchOptimizerState w.snapshot).tensors)]
  | none => []

/-- The external diagnostic export does not raise when it is actually
invoked (it is invoked only when `SAVE_GRAPH_DIR` is set and non-empty). -/
def exportBenign (w : World) : Prop :=
  ∀ dir, w.saveGraphDir = some dir → dir ≠ "" → w.exportOk = true

/-- A sample batched conversion function: maps every collected buffer to
its converted counterpart with the same id, anything else unchanged. -/
def toXtensor : PyVal → PyVal
  | .tensor n => .xtensor n
  | w => w

/-- The sample conversion function in the shape `convert_fn` expects. -/
def convertX (ts : List PyVal) (_ds : List String) : List PyVal :=
  ts.map toXtensor

/-- A successful `add` is exactly an `arenaPush`. -/
theorem arenaAdd_ok_eq (a : Arena) (t : PyVal) (d : Option String)
    (p : Arena × LinearIndex) (h : arenaAdd a t d = .ok p) :
    p = arenaPush a t d := by
  unfold arenaAdd at h
  split at h
  · exact (Except.ok.inj h).symm
  · split at h
    · exact (Except.ok.inj h).symm
    · cases h

/-- Adding a tensor of the collected kind to a kind-homogeneous arena
always succeeds. -/
theorem arenaAdd_tensor (a : Arena) (n : Nat) (d : Option String)
    (ha : ∀ t ∈ a.tensors, pyType t = PyType.tensorT) :
    arenaAdd a (.tensor n) d = .ok (arenaPush a (.tensor n) d) := by
  cases ht : a.tensors with
  | nil => simp [arenaAdd, ht]
  | cons t0 rest =>
    have h0 : pyType t0 = PyType.tensorT :=
      ha t0 (by rw [ht]; exact List.mem_cons_self _ _)
    have h0' : pyType t0 = pyType (.tensor n) := h0
    simp [arenaAdd, ht, h0']

/-- Claim C9: adding a buffer whose runtime type differs from that of the
previously added buffers raises a structural (heterogeneity) error, with
no conversion performed; when the types match (or the session is empty)
`add` appends the buffer, appends the tag only when supplied, leaves the
converted list untouched, and returns the handle `len - 1`, so handles are
issued strictly in collection order 0, 1, 2, …. -/
theorem c9_heterogeneity_rejection (a : Arena) (t : PyVal) (d : Option String) :
    (∀ t0 rest, a.tensors = t0 :: rest → pyType t0 ≠ pyType t →
      arenaAdd a t d = .error .heterogeneous) ∧
    ((a.tensors = [] ∨ ∀ t0 rest, a.tensors = t0 :: rest → pyType t0 = pyType t) →
      arenaAdd a t d =
        .ok ({ a with
                tensors := a.tensors ++ [t]
                devices := match d with
                  | some dv => a.devices ++ [dv]
                  | none => a.devices },
             ⟨a.tensors.length⟩)) := by
  constructor
  · intro t0 rest h hne
    simp [arenaAdd, h, hne]
  · intro h
    cases ht : a.tensors with
    | nil => simp [arenaAdd, ht, arenaPush]
    | cons t0 rest =>
      rcases h with h | h
      · rw [ht] at h; cases h
      · have he := h t0 rest ht
        simp [arenaAdd, ht, he, arenaPush]

/-- Claim C9 witness: a session holding a tensor rejects a scalar, and
accepts a second tensor with handle index 1. -/
theorem c9_witness :
    arenaAdd { convertFn := fun ts _ => ts, tensors := [.tensor 0] }
        (.scalar 5) none
      = .error .heterogeneous ∧
    arenaAdd { convertFn := fun ts _ => ts, tensors := [.tensor 0] }
        (.tensor 7) (some "d")
      = .ok ({ convertFn := fun ts _ => ts,
               tensors := [.tensor 0, .tensor 7],
               devices := ["d"] }, ⟨1⟩) := by
  constructor
  · exact (c9_heterogeneity_rejection _ _ _).1 (.tensor 0) [] rfl
      (by simp [pyType])
  · exact (c9_heterogeneity_rejection _ _ _).2
      (Or.inr (fun t0 rest h => by cases h; rfl))

/-- Claim C6 counterexample: `convert()` called a second time does not
raise — the model's `arenaConvert` is a total function because the source
(lines 173-175) has no sequencing guard — and it runs the conversion
function again: after an extra tensor is slipped into the session between
the two calls, the second call overwrites the converted list with the
conversion of the updated tensor list. -/
theorem c6_counterexample :
    arenaConvert (arenaConvert
        { convertFn := fun ts _ => ts, tensors := [.tensor 0] })
      = { convertFn := fun ts _ => ts, tensors := [.tensor 0],
          converted := some [.tensor 0] } ∧
    arenaConvert
        { arenaConvert { convertFn := fun ts _ => ts, tensors := [.tensor 0] }
            with tensors := [.tensor 0, .tensor 1] }
      = { convertFn := fun ts _ => ts, tensors := [.tensor 0, .tensor 1],
          converted := some [.tensor 0, .tensor 1] } :=
  ⟨rfl, rfl⟩

/-- Claim C6 amended: `convert()` may be called again without error; each
call on a session with a non-empty tensor list re-invokes the conversion
function on the current tensor and tag lists and overwrites the converted
list (so a second call with unchanged lists is idempotent), and a call on
an empty session is a no-op. -/
theorem c6_convert_repeatable (a : Arena) :
    arenaConvert (arenaConvert a) = arenaConvert a ∧
    (a.tensors = [] → arenaConvert a = a) ∧
    (a.tensors ≠ [] →
      (arenaConvert a).converted = some (a.convertFn a.tensors a.devices)) := by
  refine ⟨?_, ?_, ?_⟩
  · cases ht : a.tensors with
    | nil => simp [arenaConvert, ht]
    | cons x rest => simp [arenaConvert, ht]
  · intro he; simp [arenaConvert, he]
  · intro hne
    cases ht : a.tensors with
    | nil => exact absurd ht hne
    | cons x rest => simp [arenaConvert, ht]

/-- Claim C6 amended witness: converting a concrete one-tensor session
produces the conversion function's output. -/
theorem c6_witness :
    (arenaConvert { convertFn := fun ts _ => ts,
                    tensors := [.tensor 0] }).converted
      = some [.tensor 0] :=
  (c6_convert_repeatable _).2.2 (by simp)

/-- Claim C7 counterexample: handles carry no session identity, so
`get_converted_tensor` cannot raise for a handle issued by a different
session.  Session B (two `add` calls) issues handle 1; session A performs
a single `add` — so A itself only ever issued handle 0 — yet with an
inflating conversion function A's converted list has two entries and A
happily serves handle 1 with a buffer instead of raising. -/
theorem c7_counterexample :
    arenaAdd { convertFn := fun ts _ => ts, tensors := [.tensor 5] }
        (.tensor 6) none
      = .ok ({ convertFn := fun ts _ => ts,
               tensors := [.tensor 5, .tensor 6] }, ⟨1⟩) ∧
    (arenaConvert { convertFn := fun ts _ => ts ++ ts,
                    tensors := [.tensor 0] }).converted
      = some [.tensor 0, .tensor 0] ∧
    getConvertedTensor
        (arenaConvert { convertFn := fun ts _ => ts ++ ts,
                        tensors := [.tensor 0] }) ⟨1⟩
      = .ok (.tensor 0) :=
  ⟨rfl, rfl, rfl⟩

/-- Claim C7 amended: `get_converted_tensor` returns a buffer exactly when
a converted list exists and the handle's index is within its bounds — the
issuing session of the handle is not checked; before conversion it raises
a sequencing error and on an out-of-range index a bounds error. -/
theorem c7_guard_characterization (a : Arena) (l : LinearIndex) :
    (a.converted = none → getConvertedTensor a l = .error .sequencing) ∧
    (∀ cs, a.converted = some cs → cs.length ≤ l.index →
      getConvertedTensor a l = .error .bounds) ∧
    (∀ cs (h : a.converted = some cs) (hl : l.index < cs.length),
      getConvertedTensor a l = .ok cs[l.index]) ∧
    ((∃ v, getConvertedTensor a l = .ok v) ↔
      ∃ cs, a.converted = some cs ∧ l.index < cs.length) := by
  refine ⟨?_, ?_, ?_, ?_⟩
  · intro h; simp [getConvertedTensor, h]
  · intro cs h hle
    have hno : ¬ l.index < cs.length := by omega
    simp [getConvertedTensor, h, hno]
  · intro cs h hl
    simp [getConvertedTensor, h, hl]
  · constructor
    · rintro ⟨v, hv⟩
      cases hc : a.converted with
      | none => simp [getConvertedTensor, hc] at hv
      | some cs =>
        refine ⟨cs, rfl, ?_⟩
        by_contra hno
        simp [getConvertedTensor, hc, hno] at hv
    · rintro ⟨cs, hc, hl⟩
      exact ⟨cs[l.index], by simp [getConvertedTensor, hc, hl]⟩

/-- Claim C7 amended witness: the three guard outcomes on concrete
sessions. -/
theorem c7_witness :
    getConvertedTensor { convertFn := fun ts _ => ts, tensors := [.tensor 3],
                         converted := some [.xtensor 3] } ⟨0⟩
      = .ok (.xtensor 3) ∧
    getConvertedTensor { convertFn := fun ts _ => ts,
                         tensors := [.tensor 3] } ⟨0⟩
      = .error .sequencing ∧
    getConvertedTensor { convertFn := fun ts _ => ts, tensors := [.tensor 3],
                         converted := some [.xtensor 3] } ⟨1⟩
      = .error .bounds :=
  ⟨(c7_guard_characterization _ _).2.2.1 [.xtensor 3] rfl (by decide),
   (c7_guard_characterization _ _).1 rfl,
   (c7_guard_characterization _ _).2.1 [.xtensor 3] rfl (by decide)⟩

/-- Field bookkeeping of a successful `add` sequence: one tensor per call,
one device tag per call that supplied one, conversion function and
converted list untouched. -/
theorem runAdds_ok (calls : List (PyVal × Option String)) :
    ∀ (a a' : Arena), runAdds a calls = .ok a' →
      a'.tensors.length = a.tensors.length + calls.length ∧
      a'.devices.length
        = a.devices.length + (calls.filter (fun c => c.2.isSome)).length ∧
      a'.convertFn = a.convertFn ∧ a'.converted = a.converted := by
  induction calls with
  | nil =>
    intro a a' h
    unfold runAdds at h
    injection h with h
    subst h
    simp
  | cons c rest ih =>
    rcases c with ⟨t, d⟩
    intro a a' h
    unfold runAdds at h
    split at h
    case h_2 e heq => cases h
    case h_1 a1 idx heq =>
      have hp := arenaAdd_ok_eq a t d (a1, idx) heq
      have h1 : a1 = (arenaPush a t d).1 := congrArg Prod.fst hp
      obtain ⟨hT, hD, hF, hC⟩ := ih a1 a' h
      have hTa : a1.tensors.length = a.tensors.length + 1 := by
        rw [h1]; simp [arenaPush]
      have hDa : a1.devices.length
          = a.devices.length + (if d.isSome then 1 else 0) := by
        rw [h1]; cases d <;> simp [arenaPush]
      have hFa : a1.convertFn = a.convertFn := by rw [h1]; simp [arenaPush]
      have hCa : a1.converted = a.converted := by rw [h1]; simp [arenaPush]
      refine ⟨?_, ?_, hF.trans hFa, hC.trans hCa⟩
      · rw [hT, hTa]; simp; omega
      · rw [hD, hDa]
        cases hd : d <;> simp [List.filter_cons, hd] <;> omega

/-- A filter keeps the full length exactly when every element satisfies
the predicate. -/
theorem filter_isSome_length_iff (calls : List (PyVal × Option String)) :
    (calls.filter (fun c => c.2.isSome)).length = calls.length ↔
      ∀ c ∈ calls, c.2.isSome = true := by
  induction calls with
  | nil => simp
  | cons c rest ih =>
    by_cases h : c.2.isSome = true
    · simp [List.filter_cons, h, ih]
    · have hlt := List.length_filter_le (fun c => c.2.isSome) rest
      simp only [List.filter_cons, h, if_false, List.length_cons,
        Bool.false_eq_true]
      constructor
      · intro hlen; exfalso; omega
      · intro hall
        exact absurd (hall c (List.mem_cons_self c rest)) h

/-- Claim C10: in a session driven solely by `add`, the tensor list grows
once per call but the device-tag list only once per call that supplied a
tag, so `convert()` hands the conversion function a tag list whose length
equals the number of tagged `add` calls; the two lists have equal length
exactly when every call supplied a tag — which `_collect_tensors` always
does via its default empty-string tag, keeping the lists parallel. -/
theorem c10_tag_list_parallelism (f : List PyVal → List String → List PyVal)
    (calls : List (PyVal × Option String)) (a : Arena)
    (h : runAdds (mkArena f) calls = .ok a) :
    a.tensors.length = calls.length ∧
    a.devices.length = (calls.filter (fun c => c.2.isSome)).length ∧
    (a.devices.length = a.tensors.length ↔
      ∀ c ∈ calls, c.2.isSome = true) ∧
    (a.tensors ≠ [] →
      (arenaConvert a).converted = some (f a.tensors a.devices)) := by
  obtain ⟨h1, h2, h3, _⟩ := runAdds_ok calls (mkArena f) a h
  have hT : a.tensors.length = calls.length := by simpa [mkArena] using h1
  have hD : a.devices.length
      = (calls.filter (fun c => c.2.isSome)).length := by
    simpa [mkArena] using h2
  refine ⟨hT, hD, ?_, ?_⟩
  · rw [hT, hD]; exact filter_isSome_length_iff calls
  · intro hne
    have hF : a.convertFn = f := by simpa [mkArena] using h3
    cases ht : a.tensors with
    | nil => exact absurd ht hne
    | cons x rest =>
      rw [← hF, ← ht]
      simp [arenaConvert, ht]

/-- Claim C10 witness: two `add` calls, one tagged and one untagged, leave
a one-entry tag list, so the lists are not parallel. -/
theorem c10_witness :
    (({ convertFn := fun ts _ => ts, tensors := [.tensor 0, .tensor 1],
        devices := ["a"] } : Arena).devices.length
       = ({ convertFn := fun ts _ => ts, tensors := [.tensor 0, .tensor 1],
            devices := ["a"] } : Arena).tensors.length
     ↔ ∀ c ∈ ([(PyVal.tensor 0, some "a"), (PyVal.tensor 1, none)] :
          List (PyVal × Option String)), c.2.isSome = true) :=
  (c10_tag_list_parallelism (fun ts _ => ts)
    [(PyVal.tensor 0, some "a"), (PyVal.tensor 1, none)] _ rfl).2.2.1

mutual

/-- Every collected-kind leaf of a well-formed structure has the collected
runtime type. -/
theorem tLeaves_tensorT (v : PyVal) (hv : wf v = true) :
    ∀ t ∈ tLeaves v, pyType t = PyType.tensorT := by
  cases v with
  | tensor n =>
    intro t ht
    simp [tLeaves] at ht
    subst ht
    rfl
  | lst xs =>
    have hxs : wfList xs = true := by simpa [wf] using hv
    simpa [tLeaves] using tLeavesList_tensorT xs hxs
  | tup xs =>
    have hxs : wfList xs = true := by simpa [wf] using hv
    simpa [tLeaves] using tLeavesList_tensorT xs hxs
  | xtensor n => simp [wf] at hv
  | lidx l => simp [wf] at hv
  | scalar n => simp [wf] at hv
  | dict kvs => simp [wf] at hv

/-- `tLeaves_tensorT` across a list of well-formed structures. -/
theorem tLeavesList_tensorT (xs : List PyVal) (hxs : wfList xs = true) :
    ∀ t ∈ tLeavesList xs, pyType t = PyType.tensorT := by
  cases xs with
  | nil => intro t ht; simp [tLeavesList] at ht
  | cons x rest =>
    have hx : wf x = true := by
      have h := hxs; simp [wfList, Bool.and_eq_true] at h; exact h.1
    have hr : wfList rest = true := by
      have h := hxs; simp [wfList, Bool.and_eq_true] at h; exact h.2
    intro t ht
    rcases List.mem_append.1 (by simpa [tLeavesList] using ht) with h | h
    · exact tLeaves_tensorT x hx t h
    · exact tLeavesList_tensorT rest hr t h

end

mutual

/-- Behaviour of `_collect_tensors` on a well-formed structure with no
device list: it registers the leaves depth-first with the given tag and
hands back the mirrored structure whose handles start at the current
tensor-list length. -/
theorem collectTensors_wf (a : Arena) (d : String) (v : PyVal)
    (hv : wf v = true) (ha : ∀ t ∈ a.tensors, pyType t = PyType.tensorT) :
    collectTensors a .tensorT v none d =
      ({ a with tensors := a.tensors ++ tLeaves v,
                devices := a.devices ++ List.replicate (numLeaves v) d },
       .ok (mirror v a.tensors.length)) := by
  cases v with
  | tensor n =>
    have hadd := arenaAdd_tensor a n (some d) ha
    simp [collectTensors, pyType, hadd, arenaPush, mirror, tLeaves, numLeaves]
  | lst xs =>
    have hxs : wfList xs = true := by simpa [wf] using hv
    have h := collectList_wf a d xs 0 hxs ha
    simp [collectTensors, pyType, h, mirror, tLeaves, numLeaves,
      numLeavesList]
  | tup xs =>
    have hxs : wfList xs = true := by simpa [wf] using hv
    have h := collectList_wf a d xs 0 hxs ha
    simp [collectTensors, pyType, h, mirror, tLeaves, numLeaves,
      numLeavesList]
  | xtensor n => simp [wf] at hv
  | lidx l => simp [wf] at hv
  | scalar n => simp [wf] at hv
  | dict kvs => simp [wf] at hv

/-- The element loop of `_collect_tensors` over well-formed elements with
no device list. -/
theorem collectList_wf (a : Arena) (d : String) (xs : List PyVal) (i : Nat)
    (hxs : wfList xs = true) (ha : ∀ t ∈ a.tensors, pyType t = PyType.tensorT) :
    collectList a .tensorT xs none i d =
      ({ a with tensors := a.tensors ++ tLeavesList xs,
                devices := a.devices ++ List.replicate (numLeavesList xs) d },
       .ok (mirrorList xs a.tensors.length)) := by
  cases xs with
  | nil => simp [collectList, tLeavesList, numLeavesList, mirrorList]
  | cons x rest =>
    have hx : wf x = true := by
      have h := hxs; simp [wfList, Bool.and_eq_true] at h; exact h.1
    have hr : wfList rest = true := by
      have h := hxs; simp [wfList, Bool.and_eq_true] at h; exact h.2
    have h1 := collectTensors_wf a d x hx ha
    have ha1 : ∀ t ∈ a.tensors ++ tLeaves x, pyType t = PyType.tensorT := by
      intro t ht
      rcases List.mem_append.1 ht with ht | ht
      · exact ha t ht
      · exact tLeaves_tensorT x hx t ht
    have h2 := collectList_wf
      { a with tensors := a.tensors ++ tLeaves x,
               devices := a.devices ++ List.replicate (numLeaves x) d }
      d rest (i + 1) hr ha1
    simp only [collectList, h1, h2, mirrorList, tLeavesList, numLeavesList]
    simp [List.append_assoc, List.length_append, numLeaves,
      ← List.replicate_add]

end

mutual

/-- Behaviour of `_replace_tensors` on a mirrored well-formed structure:
with a converted list `cs` covering the handles in use, every handle `k`
is replaced by `cs[k]`, i.e. the result is the spec's promised
rehydration. -/
theorem replaceTensors_mirror (a : Arena) (cs : List PyVal) (v : PyVal)
    (hv : wf v = true) (k : Nat) (hk : k + numLeaves v ≤ cs.length)
    (hc : 0 < numLeaves v → a.converted = some cs) :
    replaceTensors a (mirror v k) = .ok (rehydrateSpec v cs k) := by
  cases v with
  | tensor n =>
    have hone : numLeaves (PyVal.tensor n) = 1 := by simp [numLeaves, tLeaves]
    have hcs : a.converted = some cs := hc (by omega)
    have hlt : k < cs.length := by omega
    simp [mirror, replaceTensors, getConvertedTensor, hcs, hlt,
      rehydrateSpec, List.getElem?_eq_getElem hlt]
  | lst xs =>
    have hxs : wfList xs = true := by simpa [wf] using hv
    have hk' : k + numLeavesList xs ≤ cs.length := by
      simpa [numLeaves, tLeaves, numLeavesList] using hk
    have hc' : 0 < numLeavesList xs → a.converted = some cs := by
      intro h
      exact hc (by simpa [numLeaves, tLeaves, numLeavesList] using h)
    have h := replaceList_mirror a cs xs hxs k hk' hc'
    simp [mirror, replaceTensors, h, rehydrateSpec]
  | tup xs =>
    have hxs : wfList xs = true := by simpa [wf] using hv
    have hk' : k + numLeavesList xs ≤ cs.length := by
      simpa [numLeaves, tLeaves, numLeavesList] using hk
    have hc' : 0 < numLeavesList xs → a.converted = some cs := by
      intro h
      exact hc (by simpa [numLeaves, tLeaves, numLeavesList] using h)
    have h := replaceList_mirror a cs xs hxs k hk' hc'
    simp [mirror, replaceTensors, h, rehydrateSpec]
  | xtensor n => simp [wf] at hv
  | lidx l => simp [wf] at hv
  | scalar n => simp [wf] at hv
  | dict kvs => simp [wf] at hv

/-- `replaceTensors_mirror` across a list of well-formed structures. -/
theorem replaceList_mirror (a : Arena) (cs : List PyVal) (xs : List PyVal)
    (hxs : wfList xs = true) (k : Nat)
    (hk : k + numLeavesList xs ≤ cs.length)
    (hc : 0 < numLeavesList xs → a.converted = some cs) :
    replaceList a (mirrorList xs k) = .ok (rehydrateSpecList xs cs k) := by
  cases xs with
  | nil => simp [mirrorList, replaceList, rehydrateSpecList]
  | cons x rest =>
    have hx : wf x = true := by
      have h := hxs; simp [wfList, Bool.and_eq_true] at h; exact h.1
    have hr : wfList rest = true := by
      have h := hxs; simp [wfList, Bool.and_eq_true] at h; exact h.2
    have hsum : numLeavesList (x :: rest)
        = numLeaves x + numLeavesList rest := by
      simp [numLeavesList, tLeavesList, List.length_append, numLeaves]
    have h1 := replaceTensors_mirror a cs x hx k (by omega)
      (fun h => hc (by omega))
    have h2 := replaceList_mirror a cs rest hr (k + numLeaves x)
      (by omega) (fun h => hc (by omega))
    simp [mirrorList, replaceList, h1, h2, rehydrateSpecList]

end

/-- Claim C1: round-trip identity.  For a cycle-free structure of
lists/tuples whose leaves are buffers of the collected kind, collecting
registers exactly the depth-first leaf list (tagged with the default
empty-string device), and — provided the conversion function is
length-preserving — converting and rehydrating yields the spec's promised
structure: isomorphic to the input (lists and tuples both rebuilt as
tuples, see C2), with the leaf occupying position `k` in collection order
replaced by `convert_fn(collectedLeaves, tags)[k]`; no leaf is dropped,
duplicated, reordered, or misattributed. -/
theorem c1_round_trip (f : List PyVal → List String → List PyVal)
    (hf : ∀ ts ds, (f ts ds).length = ts.length)
    (s : PyVal) (hs : wf s = true) :
    collectTensors (mkArena f) .tensorT s none "" =
      ({ mkArena f with tensors := tLeaves s,
                        devices := List.replicate (numLeaves s) "" },
       .ok (mirror s 0)) ∧
    replaceTensors
        (arenaConvert
          { mkArena f with
            tensors := tLeaves s,
            devices := List.replicate (numLeaves s) "" })
        (mirror s 0) =
      .ok (rehydrateSpec s
        (f (tLeaves s) (List.replicate (numLeaves s) "")) 0) := by
  have hcol := collectTensors_wf (mkArena f) "" s hs (by simp [mkArena])
  constructor
  · simpa [mkArena] using hcol
  · by_cases hn : tLeaves s = []
    · have hzero : numLeaves s = 0 := by simp [numLeaves, hn]
      have hconv : arenaConvert
          { mkArena f with
            tensors := tLeaves s,
            devices := List.replicate (numLeaves s) "" }
          = { mkArena f with
              tensors := tLeaves s,
              devices := List.replicate (numLeaves s) "" } := by
        simp [arenaConvert, hn]
      rw [hconv]
      exact replaceTensors_mirror _
        (f (tLeaves s) (List.replicate (numLeaves s) "")) s hs 0
        (by omega) (fun h => absurd h (by omega))
    · have hlen : (f (tLeaves s) (List.replicate (numLeaves s) "")).length
          = numLeaves s := by rw [hf]; rfl
      have hconv : arenaConvert
          { mkArena f with
            tensors := tLeaves s,
            devices := List.replicate (numLeaves s) "" }
          = { mkArena f with
              tensors := tLeaves s,
              devices := List.replicate (numLeaves s) "",
              converted :=
                some (f (tLeaves s) (List.replicate (numLeaves s) "")) } := by
        obtain ⟨x, rest, hx⟩ := List.exists_cons_of_ne_nil hn
        simp [arenaConvert, hx, mkArena]
      rw [hconv]
      exact replaceTensors_mirror _
        (f (tLeaves s) (List.replicate (numLeaves s) "")) s hs 0
        (by omega) (fun _ => rfl)

/-- Claim C1 witness: a concrete round trip over `[t5, (t7,)]` with a
conversion function that maps each collected buffer to its converted
counterpart. -/
theorem c1_witness :
    wf (PyVal.lst [.tensor 5, .tup [.tensor 7]]) = true ∧
    rehydrateSpec (PyVal.lst [.tensor 5, .tup [.tensor 7]])
        (convertX (tLeaves (PyVal.lst [.tensor 5, .tup [.tensor 7]]))
          (List.replicate
            (numLeaves (PyVal.lst [.tensor 5, .tup [.tensor 7]])) ""))
        0
      = .tup [.xtensor 5, .tup [.xtensor 7]] ∧
    replaceTensors
        (arenaConvert
          { mkArena convertX with
            tensors := tLeaves (PyVal.lst [.tensor 5, .tup [.tensor 7]]),
            devices := List.replicate
              (numLeaves (PyVal.lst [.tensor 5, .tup [.tensor 7]])) "" })
        (mirror (PyVal.lst [.tensor 5, .tup [.tensor 7]]) 0)
      = .ok (rehydrateSpec (PyVal.lst [.tensor 5, .tup [.tensor 7]])
          (convertX (tLeaves (PyVal.lst [.tensor 5, .tup [.tensor 7]]))
            (List.replicate
              (numLeaves (PyVal.lst [.tensor 5, .tup [.tensor 7]])) ""))
          0) :=
  ⟨rfl, rfl,
   (c1_round_trip convertX (fun ts ds => by simp [convertX])
      (.lst [.tensor 5, .tup [.tensor 7]]) rfl).2⟩

/-- Claim C2 counterexample: the walker turns a list into a tuple (so a
list does not stay a list), and neither the walker nor the rehydrator
traverses a mapping — a dict is passed through unchanged, its tensor left
uncollected and its embedded handle left unreplaced. -/
theorem c2_counterexample :
    (collectTensors (mkArena fun ts _ => ts) .tensorT
        (.lst [.tensor 3]) none "").2
      = .ok (.tup [.lidx ⟨0⟩]) ∧
    (collectTensors (mkArena fun ts _ => ts) .tensorT
        (.lst [.tensor 3]) none "").2
      ≠ .ok (.lst [.lidx ⟨0⟩]) ∧
    collectTensors (mkArena fun ts _ => ts) .tensorT
        (.dict [(.scalar 0, .tensor 3)]) none ""
      = (mkArena fun ts _ => ts, .ok (.dict [(.scalar 0, .tensor 3)])) ∧
    replaceTensors { convertFn := fun ts _ => ts, tensors := [.tensor 3],
                     converted := some [.xtensor 3] }
        (.dict [(.scalar 0, .lidx ⟨0⟩)])
      = .ok (.dict [(.scalar 0, .lidx ⟨0⟩)]) := by
  refine ⟨rfl, ?_, rfl, rfl⟩
  intro hcontra
  exact PyVal.noConfusion (Except.ok.inj hcontra)

/-- Claim C2 amended: the walker and the rehydrator recurse only into the
ordered containers (lists and tuples), treating both identically and
rebuilding both as tuples with order preserved and only the leaves
replaced; keyed containers (mappings) are not traversed — they are passed
through unchanged. -/
theorem c2_sequence_only_traversal (a : Arena) (xs : List PyVal)
    (kvs : List (PyVal × PyVal)) (devices : Option (List String))
    (d : String) :
    collectTensors a .tensorT (.lst xs) devices d
      = collectTensors a .tensorT (.tup xs) devices d ∧
    collectTensors a .tensorT (.dict kvs) devices d = (a, .ok (.dict kvs)) ∧
    (∀ m, (collectTensors a .tensorT (.lst xs) devices d).2 = .ok m →
      ∃ ms, m = .tup ms) ∧
    replaceTensors a (.lst xs) = replaceTensors a (.tup xs) ∧
    replaceTensors a (.dict kvs) = .ok (.dict kvs) := by
  refine ⟨rfl, rfl, ?_, rfl, rfl⟩
  intro m hm
  simp only [collectTensors] at hm
  rcases h2 : collectList a .tensorT xs devices 0 d with ⟨a1, r⟩
  rw [h2] at hm
  cases r with
  | ok ms =>
    simp [pyType] at hm
    exact ⟨ms, hm.symm⟩
  | error e => simp [pyType] at hm

/-- Claim C2 amended witness: collecting a two-element list yields a tuple
mirror with the non-leaf element passed through. -/
theorem c2_witness :
    (collectTensors (mkArena fun ts _ => ts) .tensorT
        (.lst [.tensor 1, .scalar 2]) none "").2
      = .ok (.tup [.lidx ⟨0⟩, .scalar 2]) ∧
    (∃ ms, (PyVal.tup [.lidx ⟨0⟩, .scalar 2]) = .tup ms) :=
  ⟨rfl,
   (c2_sequence_only_traversal (mkArena fun ts _ => ts)
      [.tensor 1, .scalar 2] [] none "").2.2.1 _ rfl⟩

/-- The element loop with a device list: while slot `i` is covered, the
element in slot `i` is collected (at any depth) with tag `ds[i]`. -/
theorem collectList_devices_ok (ds : List String) (xs : List PyVal) :
    ∀ (a : Arena) (i : Nat) (dev : String), wfList xs = true →
      (∀ t ∈ a.tensors, pyType t = PyType.tensorT) →
      i + xs.length ≤ ds.length →
      collectList a .tensorT xs (some ds) i dev =
        ({ a with tensors := a.tensors ++ tLeavesList xs,
                  devices := a.devices ++ slotTags xs ds i },
         .ok (mirrorList xs a.tensors.length)) := by
  induction xs with
  | nil =>
    intro a i dev _ _ _
    simp [collectList, tLeavesList, slotTags, mirrorList]
  | cons x rest ih =>
    intro a i dev hwf ha hlen
    have hx : wf x = true := by
      have h := hwf; simp [wfList, Bool.and_eq_true] at h; exact h.1
    have hr : wfList rest = true := by
      have h := hwf; simp [wfList, Bool.and_eq_true] at h; exact h.2
    have hi : i < ds.length := by
      simp only [List.length_cons] at hlen; omega
    have h1 := collectTensors_wf a ds[i] x hx ha
    have ha1 : ∀ t ∈ a.tensors ++ tLeaves x,
        pyType t = PyType.tensorT := by
      intro t ht
      rcases List.mem_append.1 ht with ht | ht
      · exact ha t ht
      · exact tLeaves_tensorT x hx t ht
    have h2 := ih
      { a with tensors := a.tensors ++ tLeaves x,
               devices := a.devices ++ List.replicate (numLeaves x) ds[i] }
      (i + 1) ds[i] hr ha1
      (by simp only [List.length_cons] at hlen; omega)
    have hgetD : ds.getD i "" = ds[i] := List.getD_eq_getElem ds "" hi
    simp only [collectList, dif_pos hi, h1, h2, slotTags, tLeavesList,
      mirrorList, hgetD]
    simp [List.append_assoc, List.length_append, numLeaves]

/-- The element loop with a too-short device list: slots are processed
while covered, and the first uncovered slot fails with a structural error
before any of its leaves are collected. -/
theorem collectList_devices_short (ds : List String) (xs : List PyVal) :
    ∀ (a : Arena) (i : Nat) (dev : String), wfList xs = true →
      (∀ t ∈ a.tensors, pyType t = PyType.tensorT) →
      i ≤ ds.length → ds.length < i + xs.length →
      collectList a .tensorT xs (some ds) i dev =
        ({ a with
            tensors := a.tensors ++ tLeavesList (xs.take (ds.length - i)),
            devices := a.devices ++ slotTags (xs.take (ds.length - i)) ds i },
         .error .deviceListTooShort) := by
  induction xs with
  | nil =>
    intro a i dev _ _ hle hlt
    simp only [List.length_nil, Nat.add_zero] at hlt
    omega
  | cons x rest ih =>
    intro a i dev hwf ha hle hlt
    have hx : wf x = true := by
      have h := hwf; simp [wfList, Bool.and_eq_true] at h; exact h.1
    have hr : wfList rest = true := by
      have h := hwf; simp [wfList, Bool.and_eq_true] at h; exact h.2
    by_cases hi : i < ds.length
    · have hsub : ds.length - i = (ds.length - (i + 1)) + 1 := by omega
      have htake : (x :: rest).take (ds.length - i)
          = x :: rest.take (ds.length - (i + 1)) := by
        rw [hsub]; rfl
      have h1 := collectTensors_wf a ds[i] x hx ha
      have ha1 : ∀ t ∈ a.tensors ++ tLeaves x,
          pyType t = PyType.tensorT := by
        intro t ht
        rcases List.mem_append.1 ht with ht | ht
        · exact ha t ht
        · exact tLeaves_tensorT x hx t ht
      have h2 := ih
        { a with tensors := a.tensors ++ tLeaves x,
                 devices := a.devices ++ List.replicate (numLeaves x) ds[i] }
        (i + 1) ds[i] hr ha1 (by omega)
        (by simp only [List.length_cons] at hlt; omega)
      have hgetD : ds.getD i "" = ds[i] := List.getD_eq_getElem ds "" hi
      simp only [collectList, dif_pos hi, h1, h2, htake, slotTags,
        tLeavesList, hgetD]
      simp [List.append_assoc, List.length_append, numLeaves]
    · have hieq : ds.length - i = 0 := by omega
      simp only [collectList, dif_neg hi]
      simp [hieq, tLeavesList, slotTags]

/-- Claim C8: with a device list and an outer sequence, every leaf nested
under outer slot `i` (at any depth) is registered with tag
`deviceList[i]`; and when the device list has fewer entries than the
outer sequence, a structural error is raised on reaching the first
uncovered slot, after the leaves of the covered slots were collected but
before any leaf of the uncovered slot. -/
theorem c8_device_tag_propagation (f : List PyVal → List String → List PyVal)
    (ss : List PyVal) (ds : List String) (hss : wfList ss = true) :
    (ss.length ≤ ds.length →
      collectTensors (mkArena f) .tensorT (.lst ss) (some ds) "" =
        ({ mkArena f with tensors := tLeavesList ss,
                          devices := slotTags ss ds 0 },
         .ok (.tup (mirrorList ss 0)))) ∧
    (ds.length < ss.length →
      collectTensors (mkArena f) .tensorT (.lst ss) (some ds) "" =
        ({ mkArena f with
            tensors := tLeavesList (ss.take ds.length),
            devices := slotTags (ss.take ds.length) ds 0 },
         .error .deviceListTooShort)) := by
  constructor
  · intro hlen
    have h := collectList_devices_ok ds ss (mkArena f) 0 "" hss
      (by simp [mkArena]) (by omega)
    simp only [mkArena, List.nil_append, List.length_nil,
      Nat.sub_zero] at h
    simp [collectTensors, pyType, h, mkArena]
  · intro hlen
    have h := collectList_devices_short ds ss (mkArena f) 0 "" hss
      (by simp [mkArena]) (by omega) (by omega)
    simp only [mkArena, List.nil_append, List.length_nil,
      Nat.sub_zero] at h
    simp [collectTensors, pyType, h, mkArena]

/-- Claim C8 witness: tags `["d0", "d1"]` over the outer sequence
`[t1, [t2, t3]]` tag `t1` with `d0` and both nested leaves with `d1`; the
one-entry list `["d0"]` fails with the first slot's leaf collected and
nothing from the uncovered slot. -/
theorem c8_witness :
    wfList [PyVal.tensor 1, .lst [.tensor 2, .tensor 3]] = true ∧
    collectTensors (mkArena fun ts _ => ts) .tensorT
        (.lst [.tensor 1, .lst [.tensor 2, .tensor 3]])
        (some ["d0", "d1"]) ""
      = ({ mkArena (fun ts _ => ts) with
            tensors :=
              tLeavesList [PyVal.tensor 1, .lst [.tensor 2, .tensor 3]],
            devices :=
              slotTags [PyVal.tensor 1, .lst [.tensor 2, .tensor 3]]
                ["d0", "d1"] 0 },
         .ok (.tup (mirrorList
            [PyVal.tensor 1, .lst [.tensor 2, .tensor 3]] 0))) ∧
    slotTags [PyVal.tensor 1, .lst [.tensor 2, .tensor 3]] ["d0", "d1"] 0
      = ["d0", "d1", "d1"] ∧
    (collectTensors (mkArena fun ts _ => ts) .tensorT
        (.lst [.tensor 1, .lst [.tensor 2, .tensor 3]]) (some ["d0"]) "").2
      = .error .deviceListTooShort ∧
    (collectTensors (mkArena fun ts _ => ts) .tensorT
        (.lst [.tensor 1, .lst [.tensor 2, .tensor 3]])
        (some ["d0"]) "").1.tensors
      = [.tensor 1] :=
  ⟨rfl,
   (c8_device_tag_propagation (fun ts _ => ts)
      [PyVal.tensor 1, .lst [.tensor 2, .tensor 3]] ["d0", "d1"] rfl).1
     (by decide),
   rfl, rfl, rfl⟩

/-- Claim C4: on the scenario snapshot with parameters `[p0, p1]` carrying
gradients `[g0, g1]` and per-parameter momentum state, the collector
returns exactly the gradient list `[g0, g1]` in that order, each gradient
once; and the traversal is deterministic — the gradient positions depend
only on the snapshot shape, not on the parameter or momentum buffer
identities. -/
theorem c4_collector_ordering (p0 g0 m0 p1 g1 m1 : Nat) (hg : g0 ≠ g1) :
    (fetchOptimizerState (canonSnapshot p0 g0 m0 p1 g1 m1)).gradients
      = [g0, g1] ∧
    ((fetchOptimizerState (canonSnapshot p0 g0 m0 p1 g1 m1)).gradients.count
        g0 = 1 ∧
     (fetchOptimizerState (canonSnapshot p0 g0 m0 p1 g1 m1)).gradients.count
        g1 = 1) ∧
    (∀ q0 n0 q1 n1,
      (fetchOptimizerState (canonSnapshot q0 g0 n0 q1 g1 n1)).gradients
        = (fetchOptimizerState
            (canonSnapshot p0 g0 m0 p1 g1 m1)).gradients) := by
  have hbase : ∀ a b c d e f',
      (fetchOptimizerState (canonSnapshot a b c d e f')).gradients
        = [b, e] := fun _ _ _ _ _ _ => rfl
  refine ⟨hbase p0 g0 m0 p1 g1 m1, ⟨?_, ?_⟩, fun q0 n0 q1 n1 => ?_⟩
  · rw [hbase]
    simp [List.count_cons, hg.symm]
  · rw [hbase]
    simp [List.count_cons, hg]
  · rw [hbase, hbase]

/-- Claim C4 witness: concrete buffer ids. -/
theorem c4_witness :
    (10 : Nat) ≠ 11 ∧
    (fetchOptimizerState (canonSnapshot 0 10 20 1 11 21)).gradients
      = [10, 11] :=
  ⟨by decide, (c4_collector_ordering 0 10 20 1 11 21 (by decide)).1⟩

/-- Claim C3: assuming only that the external diagnostic export does not
raise, `optimizer_step` produces exactly the trace: the collective
cross-replica sum on the collected gradient list with scale
`1 / replicaCount` and the empty group list — present exactly when the
replication device count exceeds one and always before the local
`optimizer.step` call — then the local step, then the step-completion
path ending in the step marker; and it returns exactly the loss the local
step produced.  With a count of one or less no collective ever appears in
the trace. -/
theorem c3_step_protocol (w : World) (hok : exportBenign w) :
    optimizerStep w =
      ((if 1 < w.replicaCount then
          [Event.crossReplicaSum (fetchOptimizerState w.snapshot).gradients
             (1 / (w.replicaCount : Rat)) []]
        else []) ++ [Event.optStep] ++ saveEvents w
        ++ [Event.stepMarker w.defaultDevice],
       .ok w.stepLoss) ∧
    (w.replicaCount ≤ 1 →
      ∀ gs q gr, Event.crossReplicaSum gs q gr ∉ (optimizerStep w).1) := by
  have hmk : markStep w (fetchOptimizerState w.snapshot)
      = (saveEvents w ++ [Event.stepMarker w.defaultDevice], .ok ()) := by
    cases hd : w.saveGraphDir with
    | none => simp [markStep, saveEvents, hd]
    | some dir =>
      by_cases he : dir = ""
      · simp [markStep, saveEvents, hd, he]
      · have hE : w.exportOk = true := hok dir hd he
        simp [markStep, saveEvents, hd, he, hE]
  have hsave : ∀ e ∈ saveEvents w, ∀ gs q gr,
      e ≠ Event.crossReplicaSum gs q gr := by
    intro e he gs q gr
    cases hd : w.saveGraphDir with
    | none => simp [saveEvents, hd] at he
    | some dir =>
      by_cases hne : dir = ""
      · simp [saveEvents, hd, hne] at he
      · simp [saveEvents, hd, hne] at he
        subst he
        simp
  constructor
  · simp [optimizerStep, hmk, Except.map]
  · intro hle gs q gr hmem
    have hnot : ¬ 1 < w.replicaCount := by omega
    simp only [optimizerStep, hmk, hnot, if_false, List.nil_append,
      List.mem_append, List.mem_cons, List.not_mem_nil, or_false,
      List.mem_singleton] at hmem
    rcases hmem with h | h | h
    · cases h
    · exact hsave _ h gs q gr rfl
    · cases h

/-- Claim C3 witness: four replicas, no dump path configured. -/
theorem c3_witness :
    optimizerStep { snapshot := canonSnapshot 0 10 20 1 11 21,
                    replicaCount := 4, saveGraphDir := none,
                    exportOk := true, stepLoss := some 7,
                    defaultDevice := "xla:0" }
      = ([.crossReplicaSum [10, 11] (1 / (4 : Rat)) [], .optStep,
          .stepMarker "xla:0"], .ok (some 7)) :=
  (c3_step_protocol
    { snapshot := canonSnapshot 0 10 20 1 11 21, replicaCount := 4,
      saveGraphDir := none, exportOk := true, stepLoss := some 7,
      defaultDevice := "xla:0" }
    (fun dir hdir _ => Option.noConfusion hdir)).1

/-- Claim C5 counterexample: with a dump path configured and the
diagnostic export failing, the error is not caught: `optimizer_step`
propagates it, no loss is returned, and the step marker is never
emitted — the source (lines 256-261) wraps the export in no exception
handler. -/
theorem c5_counterexample :
    optimizerStep { snapshot := .scalar 0, replicaCount := 1,
                    saveGraphDir := some "dump", exportOk := false,
                    stepLoss := some 7, defaultDevice := "xla:0" }
      = ([.optStep, .saveTensorsGraph "dump" "optimizer_step" []],
         .error .exportFailed) ∧
    Event.stepMarker "xla:0" ∉
      (optimizerStep { snapshot := .scalar 0, replicaCount := 1,
                       saveGraphDir := some "dump", exportOk := false,
                       stepLoss := some 7,
                       defaultDevice := "xla:0" }).1 :=
  ⟨rfl, by decide⟩

/-- Claim C5 amended: when a dump path is configured and the diagnostic
export fails, the export error propagates out of `optimizer_step`: the
loss is not returned, the step marker is never emitted, and the trace
ends at the failed export. -/
theorem c5_export_error_propagates (w : World) (dir : String)
    (hd : w.saveGraphDir = some dir) (hne : dir ≠ "")
    (hfail : w.exportOk = false) :
    (optimizerStep w).2 = .error .exportFailed ∧
    (∀ dev, Event.stepMarker dev ∉ (optimizerStep w).1) ∧
    (optimizerStep w).1
      = (if 1 < w.replicaCount then
          [Event.crossReplicaSum (fetchOptimizerState w.snapshot).gradients
             (1 / (w.replicaCount : Rat)) []]
        else [])
        ++ [Event.optStep]
        ++ [Event.saveTensorsGraph dir "optimizer_step"
             ((fetchOptimizerState w.snapshot).gradients
              ++ (fetchOptimizerState w.snapshot).tensors)] := by
  have hmk : markStep w (fetchOptimizerState w.snapshot)
      = ([Event.saveTensorsGraph dir "optimizer_step"
           ((fetchOptimizerState w.snapshot).gradients
            ++ (fetchOptimizerState w.snapshot).tensors)],
         .error .exportFailed) := by
    simp [markStep, hd, hne, hfail]
  refine ⟨?_, ?_, ?_⟩
  · simp [optimizerStep, hmk, Except.map]
  · intro dev hmem
    by_cases hc : 1 < w.replicaCount <;>
      simp [optimizerStep, hmk, hc] at hmem
  · simp [optimizerStep, hmk]

/-- Claim C5 amended witness: a concrete failing export with two
replicas. -/
theorem c5_witness :
    (optimizerStep { snapshot := .scalar 0, replicaCount := 2,
                     saveGraphDir := some "g", exportOk := false,
                     stepLoss := some 1, defaultDevice := "d" }).2
      = .error .exportFailed :=
  (c5_export_error_propagates
    { snapshot := .scalar 0, replicaCount := 2, saveGraphDir := some "g",
      exportOk := false, stepLoss := some 1, defaultDevice := "d" }
    "g" rfl (by decide) rfl).1

end XlaModel
